import Mathlib

/-!
Verification development for the kyma-cli installation and test-suite
watchers.

Poll variant: `waitForInstaller` in internal/cmd/install/cmd.go.
Watch variant: `waitForTestSuite` / `clusterTestSuiteCompleted` /
`testResultStatistic` in the test-run command.

The effectful collaborators (kubectl invocations, the Kubernetes watch
stream, the deadline timer channel) are modelled as oracles: each loop
iteration consumes one oracle record describing what the environment
delivered at that iteration.  Sink calls (the step/spinner UI) are recorded
as an event trace, one constructor per call site in the source.
-/

set_option maxHeartbeats 1000000

/-- Go strings.Contains helper: true when the needle occurs as a contiguous
run at the head of the haystack. -/
def leadingMatch : List Char → List Char → Bool
  | [], _ => true
  | _ :: _, [] => false
  | a :: as, b :: bs => a == b && leadingMatch as bs

/-- True when the needle occurs contiguously anywhere in the haystack. -/
def hasSub : List Char → List Char → Bool
  | [], needle => leadingMatch needle []
  | h :: t, needle => leadingMatch needle (h :: t) || hasSub t needle

/-- Model of Go strings.Contains(s, substr): substr occurs within s. -/
def goStringsContains (s substr : String) : Bool :=
  hasSub s.toList substr.toList

/-! ## Poll variant: waitForInstaller -/

/-- One sink call of the poll-variant watcher; one constructor per call
site in waitForInstaller. -/
inductive SinkEvent where
  /-- cmd.NewStep(desc) before the initial fetch, and opts.NewStep(desc)
  inside the InProgress branch. -/
  | newStep (desc : String)
  /-- CurrentStep.Success() -/
  | stepSuccess
  /-- CurrentStep.Failure() -/
  | stepFailure
  /-- cmd.printInstallationErrorLog() in the timeout branch -/
  | dumpErrorLog
  /-- LogError: could not get the status, retrying (transient sampling
  failure) -/
  | logRetryStatus
  /-- LogErrorf: desc failed, which may be OK, will retry later -/
  | logErrorFailedMayBeOK (desc : String)
  /-- LogInfo: how to fetch the error logs from the installer -/
  | logFetchErrorHint
  /-- LogInfo: how to fetch the application logs from the installer -/
  | logFetchAppLogsHint
  /-- LogInfo: failed to get the installation status, will retry later
  (empty status branch) -/
  | logStatusFetchFailed
  deriving DecidableEq, Repr

/-- Mutable loop state of waitForInstaller: currentDesc and the
errorOccured suppression flag. -/
structure PollState where
  currentDesc : String
  errorOccured : Bool
  deriving DecidableEq, Repr

/-- Oracle record for one loop iteration: whether the deadline channel is
ready at the select, and the triple returned by getInstallationStatus
(status, description, optional error message). -/
structure LoopTick where
  deadlineReady : Bool
  status : String
  desc : String
  sampleErr : Option String
  deriving DecidableEq, Repr

/-- Final outcome of waitForInstaller. -/
inductive PollResult where
  /-- return nil -/
  | ok
  /-- return err (a sampling error propagated to the caller) -/
  | fetchErr (msg : String)
  /-- the timeout branch: errors.New about the timeout being reached -/
  | timeoutErr
  /-- os.Exit(1) on an unexpected status string -/
  | exited (status : String)
  /-- oracle trace exhausted while the loop would still be running -/
  | pending
  deriving DecidableEq, Repr

/-- Outcome of one loop iteration: either continue with a new state or
stop with a result. -/
inductive PollStepOut where
  | cont (st : PollState)
  | done (r : PollResult)
  deriving DecidableEq, Repr

/-- The switch statement on the sampled status string inside the loop of
waitForInstaller.  Returns the sink calls made and the continuation. -/
def pollSwitch (st : PollState) (status desc : String) :
    List SinkEvent × PollStepOut :=
  if status = "Installed" then
    ([SinkEvent.stepSuccess], PollStepOut.done PollResult.ok)
  else if status = "Error" then
    if st.errorOccured then ([], PollStepOut.cont st)
    else
      ([SinkEvent.logErrorFailedMayBeOK desc, SinkEvent.logFetchErrorHint,
        SinkEvent.logFetchAppLogsHint],
       PollStepOut.cont { st with errorOccured := true })
  else if status = "InProgress" then
    -- errorOccured is set to false before the description comparison
    if desc = st.currentDesc then
      ([], PollStepOut.cont { st with errorOccured := false })
    else
      ([SinkEvent.stepSuccess, SinkEvent.newStep desc],
       PollStepOut.cont { currentDesc := desc, errorOccured := false })
  else if status = "" then
    ([SinkEvent.logStatusFetchFailed], PollStepOut.cont st)
  else
    ([SinkEvent.stepFailure], PollStepOut.done (PollResult.exited status))

/-- One iteration of the waitForInstaller loop: the select between the
deadline channel and the default branch that samples the status.  The
middle component counts calls to getInstallationStatus (0 or 1).  The
deadline channel can only be ready when the configured timeout was
positive (a nil channel never delivers). -/
def pollStep (timeout : Nat) (st : PollState) (tick : LoopTick) :
    List SinkEvent × Nat × PollStepOut :=
  if tick.deadlineReady && decide (0 < timeout) then
    ([SinkEvent.stepFailure, SinkEvent.dumpErrorLog], 0,
     PollStepOut.done PollResult.timeoutErr)
  else
    match tick.sampleErr with
    | some e =>
      -- note the source argument order: the message is tested for being
      -- a substring of the literal, not the other way round
      if goStringsContains "operation timed out" e then
        let (evs, out) := pollSwitch st tick.status tick.desc
        (SinkEvent.logRetryStatus :: evs, 1, out)
      else ([], 1, PollStepOut.done (PollResult.fetchErr e))
    | none =>
      let (evs, out) := pollSwitch st tick.status tick.desc
      (evs, 1, out)

/-- The waiting loop of waitForInstaller over an oracle trace. -/
def pollLoop (timeout : Nat) (st : PollState) :
    List LoopTick → List SinkEvent × Nat × PollResult
  | [] => ([], 0, PollResult.pending)
  | tick :: rest =>
    match pollStep timeout st tick with
    | (evs, n, PollStepOut.done r) => (evs, n, r)
    | (evs, n, PollStepOut.cont st2) =>
      let (evs2, n2, r) := pollLoop timeout st2 rest
      (evs ++ evs2, n + n2, r)

/-- waitForInstaller: opens the waiting step, takes one status fetch
before the deadline timer is created (its result is the initial
argument), returns immediately on error or on Installed, otherwise
creates the timer (only when timeout is positive) and enters the loop
with empty currentDesc and a clear error flag.  The middle component
counts getInstallationStatus calls made inside the loop. -/
def waitForInstaller (timeout : Nat) (initial : Except String String)
    (ticks : List LoopTick) : List SinkEvent × Nat × PollResult :=
  let opening := [SinkEvent.newStep "Waiting for installation to start"]
  match initial with
  | Except.error e => (opening, 0, PollResult.fetchErr e)
  | Except.ok status =>
    if status = "Installed" then (opening, 0, PollResult.ok)
    else
      let (evs, n, r) := pollLoop timeout ⟨"", false⟩ ticks
      (opening ++ evs, n, r)

/-- An oracle tick where the deadline is not ready and sampling succeeds
with the given status and description. -/
def statusTick (status desc : String) : LoopTick :=
  ⟨false, status, desc, none⟩

/-! ## Watch variant: waitForTestSuite / clusterTestSuiteCompleted -/

/-- Condition types of an octopus ClusterTestSuite condition. -/
inductive SuiteConditionType where
  | SuiteUninitialized
  | SuiteRunning
  | SuiteSucceeded
  | SuiteError
  | SuiteFailed
  deriving DecidableEq, Repr

/-- Status of a suite condition. -/
inductive ConditionStatus where
  | StatusTrue
  | StatusFalse
  | StatusUnknown
  deriving DecidableEq, Repr

/-- One entry of the suite condition list. -/
structure TestSuiteCondition where
  type : SuiteConditionType
  status : ConditionStatus
  deriving DecidableEq, Repr

/-- Status of a single test result inside the suite. -/
inductive TestStatus where
  | TestNotYetScheduled
  | TestScheduled
  | TestRunning
  | TestUnknown
  | TestFailed
  | TestSucceeded
  | TestSkipped
  deriving DecidableEq, Repr

/-- One per-test result entry. -/
structure TestResult where
  status : TestStatus
  deriving DecidableEq, Repr

/-- Status subobject of a ClusterTestSuite. -/
structure TestSuiteStatus where
  conditions : List TestSuiteCondition
  results : List TestResult
  deriving DecidableEq, Repr

/-- The watched custom resource. -/
structure ClusterTestSuite where
  name : String
  status : TestSuiteStatus
  deriving DecidableEq, Repr

/-- Sink calls made by clusterTestSuiteCompleted on the step reporter;
one constructor per call site.  The failure constructor records which
terminal condition type produced it (the errored and failed messages
differ only in their final word). -/
inductive WatchSink where
  /-- Successf: test suite name execution succeeded -/
  | successf (name : String)
  /-- Failuref: test suite name execution errored or failed -/
  | failuref (name : String) (k : SuiteConditionType)
  /-- Status(testResultStatistic(ts)) -/
  | statusMsg (msg : String)
  deriving DecidableEq, Repr

/-- Count of results having the given status, as accumulated by the
counting loop in testResultStatistic. -/
def countStatus (ts : ClusterTestSuite) (s : TestStatus) : Nat :=
  ts.status.results.countP (fun r => decide (r.status = s))

/-- Number of failed results. -/
def failedCount (ts : ClusterTestSuite) : Nat :=
  countStatus ts TestStatus.TestFailed

/-- Number of succeeded results. -/
def succeededCount (ts : ClusterTestSuite) : Nat :=
  countStatus ts TestStatus.TestSucceeded

/-- Number of skipped results. -/
def skippedCount (ts : ClusterTestSuite) : Nat :=
  countStatus ts TestStatus.TestSkipped

/-- finished in testResultStatistic: failed + succeeded + skipped. -/
def finishedCount (ts : ClusterTestSuite) : Nat :=
  failedCount ts + succeededCount ts + skippedCount ts

/-- testResultStatistic: the formatted progress line pushed via
statusReporter.Status. -/
def testResultStatistic (ts : ClusterTestSuite) : String :=
  let succeeded := succeededCount ts
  let failed := failedCount ts
  let skipped := skippedCount ts
  let finished := finishedCount ts
  let all := ts.status.results.length
  toString finished ++ " out of " ++ toString all ++
    " test(s) have finished (Succeeded: " ++ toString succeeded ++
    ", Failed: " ++ toString failed ++ ", Skipped: " ++
    toString skipped ++ ")..."

/-- The per-condition terminal check inside the loop of
clusterTestSuiteCompleted: when the condition has status True and a
terminal type, the corresponding sink call is produced. -/
def condTerminal (name : String) (c : TestSuiteCondition) :
    Option WatchSink :=
  if c.status = ConditionStatus.StatusTrue then
    match c.type with
    | SuiteConditionType.SuiteSucceeded => some (WatchSink.successf name)
    | SuiteConditionType.SuiteError =>
      some (WatchSink.failuref name SuiteConditionType.SuiteError)
    | SuiteConditionType.SuiteFailed =>
      some (WatchSink.failuref name SuiteConditionType.SuiteFailed)
    | _ => none
  else none

/-- The for-loop over ts.Status.Conditions in clusterTestSuiteCompleted:
a terminal condition returns true immediately; otherwise the statistics
line is pushed after examining the condition and iteration continues. -/
def condLoop (ts : ClusterTestSuite) :
    List TestSuiteCondition → List WatchSink × Bool
  | [] => ([], false)
  | c :: rest =>
    match condTerminal ts.name c with
    | some s => ([s], true)
    | none =>
      let (evs, fin) := condLoop ts rest
      (WatchSink.statusMsg (testResultStatistic ts) :: evs, fin)

/-- Kubernetes watch event types. -/
inductive EventType where
  | Added
  | Modified
  | Deleted
  | Bookmark
  | ErrorType
  deriving DecidableEq, Repr

/-- A watch event: its type, and its object when it is a
ClusterTestSuite (none models an object of another runtime type, which
the type switch ignores). -/
structure WatchEvent where
  typ : EventType
  obj : Option ClusterTestSuite
  deriving DecidableEq, Repr

/-- Error classification of the condition function. -/
inductive WatchErr where
  /-- apierrors.NewNotFound for the given name -/
  | notFound (name : String)
  /-- the internal-error path for unexpected event types -/
  | internal
  deriving DecidableEq, Repr

/-- clusterTestSuiteCompleted for one event: the sink calls made, the
done flag, and the optional error.  Deleted events produce a NotFound
error with an empty name; unexpected event types produce an internal
error. -/
def clusterTestSuiteCompleted (e : WatchEvent) :
    List WatchSink × Bool × Option WatchErr :=
  match e.typ with
  | EventType.Added | EventType.Modified =>
    match e.obj with
    | some ts =>
      let (evs, fin) := condLoop ts ts.status.conditions
      (evs, fin, none)
    | none => ([], false, none)
  | EventType.Deleted => ([], false, some (WatchErr.notFound ""))
  | _ => ([], true, some WatchErr.internal)

/-- Final outcome of waitForTestSuite. -/
inductive WatchOutcome where
  /-- UntilWithSync finished because the condition returned true with no
  error: waitForTestSuite returns nil -/
  | ok
  /-- a NotFound error (precondition miss or Deleted event) -/
  | errNotFound (name : String)
  /-- the internal-error path for unexpected event types -/
  | errInternal
  /-- the store read in the precondition returned an error -/
  | errStore (msg : String)
  /-- the context deadline expired -/
  | deadlineExceeded
  /-- oracle trace exhausted while the watch would still be running -/
  | pending
  deriving DecidableEq, Repr

/-- Oracle input for the watch loop: either the context deadline fires
or an event is delivered. -/
inductive WatchInput where
  | deadline
  | ev (e : WatchEvent)
  deriving DecidableEq, Repr

/-- The event-consuming loop of UntilWithSync driving
clusterTestSuiteCompleted.  A deadline input ends the wait only when the
configured timeout was positive (only then was the context derived with
a timeout); with a zero timeout the context has no deadline, so the
input cannot fire and is skipped. -/
def watchLoop (timeout : Nat) :
    List WatchInput → List WatchSink × WatchOutcome
  | [] => ([], WatchOutcome.pending)
  | WatchInput.deadline :: rest =>
    if 0 < timeout then ([], WatchOutcome.deadlineExceeded)
    else watchLoop timeout rest
  | WatchInput.ev e :: rest =>
    match clusterTestSuiteCompleted e with
    | (evs, _, some (WatchErr.notFound n)) =>
      (evs, WatchOutcome.errNotFound n)
    | (evs, _, some WatchErr.internal) => (evs, WatchOutcome.errInternal)
    | (evs, true, none) => (evs, WatchOutcome.ok)
    | (evs, false, none) =>
      let (evs2, r) := watchLoop timeout rest
      (evs ++ evs2, r)

/-- waitForTestSuite: the precondition reads the local cache for the
named resource (storeGet is the oracle for that read: an error or the
existence flag).  A read error or a missing resource ends the wait
before any event is processed; otherwise the watch runs. -/
def waitForTestSuite (name : String) (storeGet : Except String Bool)
    (timeout : Nat) (inputs : List WatchInput) :
    List WatchSink × WatchOutcome :=
  match storeGet with
  | Except.error e => ([], WatchOutcome.errStore e)
  | Except.ok found =>
    if found then watchLoop timeout inputs
    else ([], WatchOutcome.errNotFound name)

/-- A condition fires the terminal check: status True and terminal type. -/
def isTermCond (c : TestSuiteCondition) : Bool :=
  decide (c.status = ConditionStatus.StatusTrue) &&
    (match c.type with
     | SuiteConditionType.SuiteSucceeded => true
     | SuiteConditionType.SuiteError => true
     | SuiteConditionType.SuiteFailed => true
     | _ => false)

/-- A suite carries a terminal condition. -/
def suiteTerminal (ts : ClusterTestSuite) : Bool :=
  ts.status.conditions.any isTermCond

/-- An event is an Added or Modified event. -/
def isAddMod (e : WatchEvent) : Bool :=
  decide (e.typ = EventType.Added) || decide (e.typ = EventType.Modified)

/-- An Added or Modified event whose object is a suite with a terminal
condition: a terminal observation. -/
def evTerminal (e : WatchEvent) : Bool :=
  isAddMod e &&
    (match e.obj with
     | some ts => suiteTerminal ts
     | none => false)

/-- A sink call reporting a terminal transition (Successf or Failuref). -/
def isTerminalSink : WatchSink → Bool
  | WatchSink.successf _ => true
  | WatchSink.failuref _ _ => true
  | WatchSink.statusMsg _ => false

/-- The error-info report of the poll variant (the failed, may be OK
line). -/
def isErrorReport : SinkEvent → Bool
  | SinkEvent.logErrorFailedMayBeOK _ => true
  | _ => false

theorem pollSwitch_no_timeout (st : PollState) (s d : String) :
    (pollSwitch st s d).2 ≠ PollStepOut.done PollResult.timeoutErr := by
  unfold pollSwitch
  split_ifs <;> simp

theorem pollStep_zero_no_timeout (st : PollState) (tick : LoopTick) :
    (pollStep 0 st tick).2.2 ≠ PollStepOut.done PollResult.timeoutErr := by
  obtain ⟨dr, s, d, se⟩ := tick
  cases se with
  | none => simpa [pollStep] using pollSwitch_no_timeout st s d
  | some e =>
    by_cases h : goStringsContains "operation timed out" e = true
    · simpa [pollStep, h] using pollSwitch_no_timeout st s d
    · simp [pollStep, h]

theorem pollLoop_zero_no_timeout (st : PollState) (ticks : List LoopTick) :
    (pollLoop 0 st ticks).2.2 ≠ PollResult.timeoutErr := by
  induction ticks generalizing st with
  | nil => simp [pollLoop]
  | cons tick rest ih =>
    have h := pollStep_zero_no_timeout st tick
    unfold pollLoop
    rcases hs : pollStep 0 st tick with ⟨evs, n, out⟩
    rw [hs] at h
    cases out with
    | done r =>
      simp only at h ⊢
      intro hc
      exact h (by simp at h ⊢; rw [hc])
    | cont st2 =>
      simpa using ih st2

theorem condTerminal_isSome_iff (name : String) (c : TestSuiteCondition) :
    (condTerminal name c).isSome = isTermCond c := by
  obtain ⟨ty, stc⟩ := c
  cases stc <;> cases ty <;> simp [condTerminal, isTermCond]

theorem condTerminal_terminalSink (name : String) (c : TestSuiteCondition)
    (s : WatchSink) (h : condTerminal name c = some s) :
    isTerminalSink s = true := by
  obtain ⟨ty, stc⟩ := c
  cases stc <;> cases ty <;> simp_all [condTerminal, isTerminalSink] <;>
    try (subst h; rfl)

theorem condLoop_no_terminal (ts : ClusterTestSuite)
    (conds : List TestSuiteCondition)
    (h : ∀ c ∈ conds, isTermCond c = false) :
    condLoop ts conds =
      (List.replicate conds.length
        (WatchSink.statusMsg (testResultStatistic ts)), false) := by
  induction conds with
  | nil => simp [condLoop]
  | cons c rest ih =>
    have hc : condTerminal ts.name c = none := by
      have := condTerminal_isSome_iff ts.name c
      rw [h c (List.mem_cons_self c rest)] at this
      exact Option.not_isSome_iff_eq_none.mp (by simp [this])
    rw [condLoop, hc, ih (fun x hx => h x (List.mem_cons_of_mem c hx))]
    simp [List.replicate_succ]

theorem condLoop_terminal (ts : ClusterTestSuite)
    (pre : List TestSuiteCondition) (c : TestSuiteCondition)
    (post : List TestSuiteCondition)
    (hpre : ∀ x ∈ pre, isTermCond x = false)
    (hc : isTermCond c = true) :
    ∃ s, condTerminal ts.name c = some s ∧ isTerminalSink s = true ∧
      condLoop ts (pre ++ c :: post) =
        (List.replicate pre.length
          (WatchSink.statusMsg (testResultStatistic ts)) ++ [s], true) := by
  have hsome : (condTerminal ts.name c).isSome = true := by
    rw [condTerminal_isSome_iff, hc]
  obtain ⟨s, hs⟩ := Option.isSome_iff_exists.mp hsome
  refine ⟨s, hs, condTerminal_terminalSink ts.name c s hs, ?_⟩
  induction pre with
  | nil => simp [condLoop, hs]
  | cons x rest ih =>
    have hx : condTerminal ts.name x = none := by
      have := condTerminal_isSome_iff ts.name x
      rw [hpre x (List.mem_cons_self x rest)] at this
      exact Option.not_isSome_iff_eq_none.mp (by simp [this])
    rw [List.cons_append, condLoop, hx,
      ih (fun y hy => hpre y (List.mem_cons_of_mem x hy))]
    simp [List.replicate_succ]

theorem condLoop_countP_of_no_terminal (ts : ClusterTestSuite)
    (conds : List TestSuiteCondition)
    (h : ∀ c ∈ conds, isTermCond c = false) :
    (condLoop ts conds).1.countP isTerminalSink = 0 ∧
      (condLoop ts conds).2 = false := by
  rw [condLoop_no_terminal ts conds h]
  refine ⟨?_, rfl⟩
  simp [List.countP_eq_zero]
  intros
  rfl

theorem condLoop_countP_of_terminal (ts : ClusterTestSuite)
    (conds : List TestSuiteCondition)
    (h : conds.any isTermCond = true) :
    (condLoop ts conds).1.countP isTerminalSink = 1 ∧
      (condLoop ts conds).2 = true := by
  induction conds with
  | nil => simp at h
  | cons c rest ih =>
    by_cases hc : isTermCond c = true
    · have hsome : (condTerminal ts.name c).isSome = true := by
        rw [condTerminal_isSome_iff, hc]
      obtain ⟨s, hs⟩ := Option.isSome_iff_exists.mp hsome
      have hterm := condTerminal_terminalSink ts.name c s hs
      rw [condLoop, hs]
      simp [List.countP_cons, hterm]
    · have hnone : condTerminal ts.name c = none := by
        have := condTerminal_isSome_iff ts.name c
        rw [eq_false_of_ne_true hc] at this
        exact Option.not_isSome_iff_eq_none.mp (by simp [this])
      have hrest : rest.any isTermCond = true := by
        simp only [List.any_cons, eq_false_of_ne_true hc, Bool.false_or] at h
        exact h
      obtain ⟨h1, h2⟩ := ih hrest
      rw [condLoop, hnone]
      rcases hcl : condLoop ts rest with ⟨evs, fin⟩
      rw [hcl] at h1 h2
      simp_all [List.countP_cons, isTerminalSink]

theorem completed_nonterminal (e : WatchEvent)
    (ha : isAddMod e = true) (ht : evTerminal e = false) :
    ∃ evs, clusterTestSuiteCompleted e = (evs, false, none) ∧
      evs.countP isTerminalSink = 0 := by
  obtain ⟨typ, obj⟩ := e
  have htyp : typ = EventType.Added ∨ typ = EventType.Modified := by
    simp [isAddMod] at ha
    tauto
  cases obj with
  | none =>
    rcases htyp with h | h <;> subst h <;>
      exact ⟨[], rfl, rfl⟩
  | some ts =>
    have hsuite : suiteTerminal ts = false := by
      simp [evTerminal, ha] at ht
      exact ht
    have hall : ∀ c ∈ ts.status.conditions, isTermCond c = false := by
      intro c hcmem
      have := List.any_eq_false.mp hsuite c hcmem
      simpa using this
    obtain ⟨h1, h2⟩ := condLoop_countP_of_no_terminal ts ts.status.conditions hall
    rcases hcl : condLoop ts ts.status.conditions with ⟨evs, fin⟩
    rw [hcl] at h1 h2
    simp only at h1 h2
    subst h2
    rcases htyp with h | h <;> subst h <;>
      exact ⟨evs, by simp [clusterTestSuiteCompleted, hcl], h1⟩

theorem completed_terminal (e : WatchEvent)
    (ht : evTerminal e = true) :
    ∃ evs, clusterTestSuiteCompleted e = (evs, true, none) ∧
      evs.countP isTerminalSink = 1 := by
  obtain ⟨typ, obj⟩ := e
  have ha : isAddMod ⟨typ, obj⟩ = true := by
    simp [evTerminal] at ht
    exact ht.1
  have htyp : typ = EventType.Added ∨ typ = EventType.Modified := by
    simp [isAddMod] at ha
    tauto
  cases obj with
  | none => simp [evTerminal, ha] at ht
  | some ts =>
    have hsuite : suiteTerminal ts = true := by
      simp [evTerminal, ha] at ht
      exact ht
    obtain ⟨h1, h2⟩ := condLoop_countP_of_terminal ts ts.status.conditions hsuite
    rcases hcl : condLoop ts ts.status.conditions with ⟨evs, fin⟩
    rw [hcl] at h1 h2
    simp only at h1 h2
    subst h2
    rcases htyp with h | h <;> subst h <;>
      exact ⟨evs, by simp [clusterTestSuiteCompleted, hcl], h1⟩

theorem watchLoop_cons_continue (t : Nat) (e : WatchEvent)
    (rest : List WatchInput) (evs : List WatchSink)
    (h : clusterTestSuiteCompleted e = (evs, false, none)) :
    watchLoop t (WatchInput.ev e :: rest) =
      (evs ++ (watchLoop t rest).1, (watchLoop t rest).2) := by
  rw [watchLoop, h]

theorem watchLoop_cons_ok (t : Nat) (e : WatchEvent)
    (rest : List WatchInput) (evs : List WatchSink)
    (h : clusterTestSuiteCompleted e = (evs, true, none)) :
    watchLoop t (WatchInput.ev e :: rest) = (evs, WatchOutcome.ok) := by
  rw [watchLoop, h]

theorem watchLoop_one_terminal (t : Nat) (evs : List WatchEvent)
    (hall : ∀ e ∈ evs, isAddMod e = true)
    (hone : evs.countP evTerminal = 1) :
    (watchLoop t (evs.map WatchInput.ev)).1.countP isTerminalSink = 1 ∧
      (watchLoop t (evs.map WatchInput.ev)).2 = WatchOutcome.ok := by
  induction evs with
  | nil => simp at hone
  | cons e rest ih =>
    by_cases he : evTerminal e = true
    · obtain ⟨sinks, hs, hcount⟩ := completed_terminal e he
      rw [List.map_cons, watchLoop_cons_ok t e _ sinks hs]
      exact ⟨hcount, rfl⟩
    · obtain ⟨sinks, hs, hcount⟩ := completed_nonterminal e
        (hall e (List.mem_cons_self e rest)) (eq_false_of_ne_true he)
      have hone2 : rest.countP evTerminal = 1 := by
        rw [List.countP_cons] at hone
        simpa [eq_false_of_ne_true he] using hone
      obtain ⟨ih1, ih2⟩ := ih (fun x hx => hall x (List.mem_cons_of_mem e hx)) hone2
      rw [List.map_cons, watchLoop_cons_continue t e _ sinks hs]
      refine ⟨?_, ih2⟩
      rw [List.countP_append, hcount, ih1]

theorem watchLoop_deleted (t : Nat) (pre : List WatchEvent)
    (obj : Option ClusterTestSuite) (rest : List WatchInput)
    (hpre : ∀ x ∈ pre, isAddMod x = true ∧ evTerminal x = false) :
    (watchLoop t (pre.map WatchInput.ev ++
        WatchInput.ev ⟨EventType.Deleted, obj⟩ :: rest)).2 =
      WatchOutcome.errNotFound "" := by
  induction pre with
  | nil =>
    simp only [List.map_nil, List.nil_append]
    rw [watchLoop]
    rfl
  | cons x pre' ih =>
    obtain ⟨hx1, hx2⟩ := hpre x (List.mem_cons_self x pre')
    obtain ⟨sinks, hs, _⟩ := completed_nonterminal x hx1 hx2
    rw [List.map_cons, List.cons_append, watchLoop_cons_continue t x _ sinks hs]
    exact ih (fun y hy => hpre y (List.mem_cons_of_mem x hy))

theorem watchLoop_zero_no_deadline (inputs : List WatchInput) :
    (watchLoop 0 inputs).2 ≠ WatchOutcome.deadlineExceeded := by
  induction inputs with
  | nil => simp [watchLoop]
  | cons i rest ih =>
    cases i with
    | deadline => simpa [watchLoop] using ih
    | ev e =>
      rcases hs : clusterTestSuiteCompleted e with ⟨evs, fin, err⟩
      cases err with
      | none =>
        cases fin
        · rw [watchLoop_cons_continue 0 e rest evs hs]
          exact ih
        · rw [watchLoop_cons_ok 0 e rest evs hs]
          simp
      | some w =>
        cases w with
        | notFound n =>
          rw [watchLoop, hs]
          simp
        | internal =>
          rw [watchLoop, hs]
          simp

theorem tripleCount_le_length (l : List TestResult) :
    l.countP (fun r => decide (r.status = TestStatus.TestFailed)) +
      l.countP (fun r => decide (r.status = TestStatus.TestSucceeded)) +
      l.countP (fun r => decide (r.status = TestStatus.TestSkipped)) ≤
      l.length := by
  induction l with
  | nil => simp
  | cons r rest ih =>
    rcases r with ⟨st⟩
    cases st <;> simp [List.countP_cons] <;> omega

theorem finishedCount_le (ts : ClusterTestSuite) :
    finishedCount ts ≤ ts.status.results.length := by
  have := tripleCount_le_length ts.status.results
  simpa [finishedCount, failedCount, succeededCount, skippedCount,
    countStatus] using this

theorem finishedCount_eq (ts : ClusterTestSuite) :
    finishedCount ts = succeededCount ts + failedCount ts + skippedCount ts := by
  unfold finishedCount
  omega

theorem completed_addmod (e : WatchEvent) (ts : ClusterTestSuite)
    (ha : isAddMod e = true) (ho : e.obj = some ts) :
    clusterTestSuiteCompleted e =
      ((condLoop ts ts.status.conditions).1,
       (condLoop ts ts.status.conditions).2, none) := by
  obtain ⟨typ, obj⟩ := e
  simp only at ho
  subst ho
  have htyp : typ = EventType.Added ∨ typ = EventType.Modified := by
    simp [isAddMod] at ha
    tauto
  rcases hc : condLoop ts ts.status.conditions with ⟨evs, fin⟩
  rcases htyp with h | h <;> subst h <;> simp [clusterTestSuiteCompleted, hc]

/-- C1: in the poll-variant watcher, an InProgress sample emits sink calls
exactly when its description differs from the last reported one; when it
differs, the previous step is closed as successful and a new step labelled
with the new description is opened; the second of two consecutive
InProgress samples with identical descriptions contributes zero sink
calls to the loop trace. -/
theorem inProgress_transition_iff_desc_change :
    (∀ (t : Nat) (st : PollState) (d : String),
      ((pollStep t st (statusTick "InProgress" d)).1 = [] ↔
        d = st.currentDesc)) ∧
    (∀ (t : Nat) (st : PollState) (d : String), d ≠ st.currentDesc →
      pollStep t st (statusTick "InProgress" d) =
        ([SinkEvent.stepSuccess, SinkEvent.newStep d], 1,
         PollStepOut.cont ⟨d, false⟩)) ∧
    (∀ (t : Nat) (st : PollState) (d : String) (ticks : List LoopTick),
      (pollLoop t st
          (statusTick "InProgress" d :: statusTick "InProgress" d :: ticks)).1 =
        (pollStep t st (statusTick "InProgress" d)).1 ++
          (pollLoop t ⟨d, false⟩ ticks).1) := by
  refine ⟨?_, ?_, ?_⟩
  · intro t st d
    by_cases h : d = st.currentDesc <;>
      simp [pollStep, statusTick, pollSwitch, h]
  · intro t st d h
    simp [pollStep, statusTick, pollSwitch, h]
  · intro t st d ticks
    by_cases h : d = st.currentDesc <;>
      simp [pollLoop, pollStep, statusTick, pollSwitch, h]

theorem inProgress_transition_iff_desc_change_witness :
    pollStep 0 ⟨"stepA", false⟩ (statusTick "InProgress" "stepB") =
      ([SinkEvent.stepSuccess, SinkEvent.newStep "stepB"], 1,
       PollStepOut.cont ⟨"stepB", false⟩) :=
  inProgress_transition_iff_desc_change.2.1 0 ⟨"stepA", false⟩ "stepB"
    (by decide)

/-- C2: the first Error sample emits the one-time failed-may-be-OK report
and sets the suppression flag; a subsequent Error sample with the flag set
emits nothing; any InProgress sample resets the flag to false; an
empty-status sample leaves the flag unchanged; the sample sequence Error,
Error, InProgress, Error produces exactly 2 error-info reports, at
positions 1 and 4 of the trace. -/
theorem error_suppression_reset :
    (∀ (t : Nat) (cd d : String),
      pollStep t ⟨cd, false⟩ (statusTick "Error" d) =
        ([SinkEvent.logErrorFailedMayBeOK d, SinkEvent.logFetchErrorHint,
          SinkEvent.logFetchAppLogsHint], 1,
         PollStepOut.cont ⟨cd, true⟩)) ∧
    (∀ (t : Nat) (cd d : String),
      pollStep t ⟨cd, true⟩ (statusTick "Error" d) =
        ([], 1, PollStepOut.cont ⟨cd, true⟩)) ∧
    (∀ (t : Nat) (st : PollState) (d : String),
      ∃ evs st2, pollStep t st (statusTick "InProgress" d) =
        (evs, 1, PollStepOut.cont st2) ∧ st2.errorOccured = false) ∧
    (∀ (t : Nat) (st : PollState),
      pollStep t st (statusTick "" "") =
        ([SinkEvent.logStatusFetchFailed], 1, PollStepOut.cont st)) ∧
    (pollLoop 7 ⟨"", false⟩
        [statusTick "Error" "stepA", statusTick "Error" "stepA",
         statusTick "InProgress" "stepB", statusTick "Error" "stepA"] =
      ([SinkEvent.logErrorFailedMayBeOK "stepA", SinkEvent.logFetchErrorHint,
        SinkEvent.logFetchAppLogsHint, SinkEvent.stepSuccess,
        SinkEvent.newStep "stepB", SinkEvent.logErrorFailedMayBeOK "stepA",
        SinkEvent.logFetchErrorHint, SinkEvent.logFetchAppLogsHint], 4,
       PollResult.pending)) ∧
    ((pollLoop 7 ⟨"", false⟩
        [statusTick "Error" "stepA", statusTick "Error" "stepA",
         statusTick "InProgress" "stepB",
         statusTick "Error" "stepA"]).1.countP isErrorReport = 2) := by
  refine ⟨?_, ?_, ?_, ?_, by decide, by decide⟩
  · intro t cd d
    simp [pollStep, statusTick, pollSwitch]
  · intro t cd d
    simp [pollStep, statusTick, pollSwitch]
  · intro t st d
    by_cases h : d = st.currentDesc
    · exact ⟨[], ⟨st.currentDesc, false⟩, by simp [pollStep, statusTick, pollSwitch, h], rfl⟩
    · exact ⟨[SinkEvent.stepSuccess, SinkEvent.newStep d], ⟨d, false⟩,
        by simp [pollStep, statusTick, pollSwitch, h], rfl⟩
  · intro t st
    simp [pollStep, statusTick, pollSwitch]

/-- C4: the transient-error check in the loop has its strings.Contains
arguments swapped: a sampling error whose message contains the substring
timed out, such as connection timed out, is nevertheless propagated
immediately and aborts the wait, because the code instead tests whether
the whole message is a substring of the literal operation timed out. -/
theorem timedOut_check_swapped :
    goStringsContains "connection timed out" "timed out" = true ∧
    goStringsContains "operation timed out" "connection timed out" = false ∧
    pollStep 5 ⟨"", false⟩ ⟨false, "", "", some "connection timed out"⟩ =
      ([], 1, PollStepOut.done (PollResult.fetchErr "connection timed out")) := by
  refine ⟨by decide, by decide, by decide⟩

/-- C5: if the deadline channel is ready at the first loop iteration, the
watcher marks the current step failed, dumps the installation error
diagnostics, and returns the deadline-exceeded error with zero calls to
the status-sampling function getInstallationStatus. -/
theorem deadline_precedence (t : Nat) (s : String) (tick : LoopTick)
    (ticks : List LoopTick) (ht : 0 < t) (hd : tick.deadlineReady = true)
    (hs : s ≠ "Installed") :
    waitForInstaller t (Except.ok s) (tick :: ticks) =
      ([SinkEvent.newStep "Waiting for installation to start",
        SinkEvent.stepFailure, SinkEvent.dumpErrorLog], 0,
       PollResult.timeoutErr) := by
  simp [waitForInstaller, hs, pollLoop, pollStep, hd, ht]

theorem deadline_precedence_witness :
    waitForInstaller 1 (Except.ok "InProgress") [⟨true, "", "", none⟩] =
      ([SinkEvent.newStep "Waiting for installation to start",
        SinkEvent.stepFailure, SinkEvent.dumpErrorLog], 0,
       PollResult.timeoutErr) :=
  deadline_precedence 1 "InProgress" ⟨true, "", "", none⟩ [] (by decide) rfl
    (by decide)

/-- C10: one status fetch happens before the deadline timer is created and
before the loop is entered: an initial fetch error of any message is
returned immediately as fatal with zero in-loop samples and no loop sink
calls, and an initial Installed status returns success immediately,
regardless of the timeout and of the oracle trace of the loop. -/
theorem initial_sample_before_loop :
    (∀ (t : Nat) (ticks : List LoopTick) (e : String),
      waitForInstaller t (Except.error e) ticks =
        ([SinkEvent.newStep "Waiting for installation to start"], 0,
         PollResult.fetchErr e)) ∧
    (∀ (t : Nat) (ticks : List LoopTick),
      waitForInstaller t (Except.ok "Installed") ticks =
        ([SinkEvent.newStep "Waiting for installation to start"], 0,
         PollResult.ok)) := by
  constructor <;> intros <;> simp [waitForInstaller]

/-- C3: in the watch-variant watcher, an Added or Modified event with no
true terminal condition emits no terminal sink call and continues the
watch; the terminal check reports success exactly for a StatusTrue
condition of type SuiteSucceeded; and for any sequence of Added or
Modified events containing exactly one terminal observation, the sink
receives exactly one terminal transition and the loop exits with the
clean ok result. -/
theorem terminal_reported_once :
    (∀ e : WatchEvent, isAddMod e = true → evTerminal e = false →
      (clusterTestSuiteCompleted e).1.countP isTerminalSink = 0 ∧
        (clusterTestSuiteCompleted e).2 = (false, none)) ∧
    (∀ (name : String) (c : TestSuiteCondition),
      condTerminal name c = some (WatchSink.successf name) ↔
        (c.status = ConditionStatus.StatusTrue ∧
          c.type = SuiteConditionType.SuiteSucceeded)) ∧
    (∀ (t : Nat) (evs : List WatchEvent),
      (∀ e ∈ evs, isAddMod e = true) → evs.countP evTerminal = 1 →
      (watchLoop t (evs.map WatchInput.ev)).1.countP isTerminalSink = 1 ∧
        (watchLoop t (evs.map WatchInput.ev)).2 = WatchOutcome.ok) := by
  refine ⟨?_, ?_, watchLoop_one_terminal⟩
  · intro e ha ht
    obtain ⟨evs, hs, hcount⟩ := completed_nonterminal e ha ht
    rw [hs]
    exact ⟨hcount, rfl⟩
  · intro name c
    obtain ⟨ty, stc⟩ := c
    cases stc <;> cases ty <;> simp [condTerminal]

theorem terminal_reported_once_witness :
    (watchLoop 0
        ([⟨EventType.Modified, some ⟨"demo", ⟨[], []⟩⟩⟩,
          ⟨EventType.Modified, some ⟨"demo",
            ⟨[⟨SuiteConditionType.SuiteSucceeded,
               ConditionStatus.StatusTrue⟩], []⟩⟩⟩].map WatchInput.ev)).1.countP
        isTerminalSink = 1 ∧
      (watchLoop 0
        ([⟨EventType.Modified, some ⟨"demo", ⟨[], []⟩⟩⟩,
          ⟨EventType.Modified, some ⟨"demo",
            ⟨[⟨SuiteConditionType.SuiteSucceeded,
               ConditionStatus.StatusTrue⟩], []⟩⟩⟩].map WatchInput.ev)).2 =
        WatchOutcome.ok :=
  terminal_reported_once.2.2 0
    [⟨EventType.Modified, some ⟨"demo", ⟨[], []⟩⟩⟩,
     ⟨EventType.Modified, some ⟨"demo",
       ⟨[⟨SuiteConditionType.SuiteSucceeded,
          ConditionStatus.StatusTrue⟩], []⟩⟩⟩]
    (by decide) (by decide)

/-- C6 counterexample: a Modified event whose suite has an empty condition
list and one finished test produces an empty sink trace, so no
incremental statistics transition is pushed for it, contrary to the
claim that statistics are pushed before the terminal-condition check
even when the condition list is empty. -/
theorem stats_skipped_on_empty_conditions :
    clusterTestSuiteCompleted
        ⟨EventType.Modified, some ⟨"demo",
          ⟨[], [⟨TestStatus.TestSucceeded⟩]⟩⟩⟩ = ([], false, none) := by
  decide

/-- C6 amended: for every Added or Modified event whose object is a test
suite, one statistics transition (whose counts satisfy finished equal to
succeeded plus failed plus skipped, bounded by the total number of
results) is pushed after each condition whose terminal check does not
fire: with no terminal condition that is one per condition, and with a
terminal condition one per preceding non-terminal condition followed by
the single terminal transition; an empty condition list yields no
statistics transition at all. -/
theorem stats_after_each_nonterminal_condition :
    (∀ (e : WatchEvent) (ts : ClusterTestSuite), isAddMod e = true →
      e.obj = some ts → (∀ c ∈ ts.status.conditions, isTermCond c = false) →
      (clusterTestSuiteCompleted e).1 =
        List.replicate ts.status.conditions.length
          (WatchSink.statusMsg (testResultStatistic ts))) ∧
    (∀ (e : WatchEvent) (ts : ClusterTestSuite)
        (pre : List TestSuiteCondition) (c : TestSuiteCondition)
        (post : List TestSuiteCondition), isAddMod e = true →
      e.obj = some ts → ts.status.conditions = pre ++ c :: post →
      (∀ x ∈ pre, isTermCond x = false) → isTermCond c = true →
      ∃ s, isTerminalSink s = true ∧
        (clusterTestSuiteCompleted e).1 =
          List.replicate pre.length
            (WatchSink.statusMsg (testResultStatistic ts)) ++ [s]) ∧
    (∀ ts : ClusterTestSuite,
      finishedCount ts = succeededCount ts + failedCount ts + skippedCount ts ∧
        finishedCount ts ≤ ts.status.results.length) := by
  refine ⟨?_, ?_, fun ts => ⟨finishedCount_eq ts, finishedCount_le ts⟩⟩
  · intro e ts ha ho hall
    rw [completed_addmod e ts ha ho]
    simp only
    rw [condLoop_no_terminal ts ts.status.conditions hall]
  · intro e ts pre c post ha ho hconds hpre hc
    obtain ⟨s, _, hsink, hloop⟩ := condLoop_terminal ts pre c post hpre hc
    refine ⟨s, hsink, ?_⟩
    rw [completed_addmod e ts ha ho]
    simp only
    rw [hconds, hloop]

theorem stats_after_each_nonterminal_condition_witness :
    ∃ s, isTerminalSink s = true ∧
      (clusterTestSuiteCompleted ⟨EventType.Modified, some ⟨"demo",
          ⟨[⟨SuiteConditionType.SuiteRunning, ConditionStatus.StatusTrue⟩,
            ⟨SuiteConditionType.SuiteSucceeded, ConditionStatus.StatusTrue⟩],
           []⟩⟩⟩).1 =
        List.replicate 1
          (WatchSink.statusMsg (testResultStatistic ⟨"demo",
            ⟨[⟨SuiteConditionType.SuiteRunning, ConditionStatus.StatusTrue⟩,
              ⟨SuiteConditionType.SuiteSucceeded, ConditionStatus.StatusTrue⟩],
             []⟩⟩)) ++ [s] :=
  stats_after_each_nonterminal_condition.2.1
    ⟨EventType.Modified, some ⟨"demo",
      ⟨[⟨SuiteConditionType.SuiteRunning, ConditionStatus.StatusTrue⟩,
        ⟨SuiteConditionType.SuiteSucceeded, ConditionStatus.StatusTrue⟩],
       []⟩⟩⟩
    ⟨"demo",
      ⟨[⟨SuiteConditionType.SuiteRunning, ConditionStatus.StatusTrue⟩,
        ⟨SuiteConditionType.SuiteSucceeded, ConditionStatus.StatusTrue⟩],
       []⟩⟩
    [⟨SuiteConditionType.SuiteRunning, ConditionStatus.StatusTrue⟩]
    ⟨SuiteConditionType.SuiteSucceeded, ConditionStatus.StatusTrue⟩ []
    (by decide) rfl rfl (by decide) (by decide)

/-- C7: a Deleted event arriving after any number of non-terminal Added or
Modified events makes the watch loop exit with the NotFound-classified
outcome, which is distinct from success, from the generic internal
error, and from silent continuation. -/
theorem deleted_event_notFound :
    (∀ (t : Nat) (pre : List WatchEvent) (obj : Option ClusterTestSuite)
        (rest : List WatchInput),
      (∀ x ∈ pre, isAddMod x = true ∧ evTerminal x = false) →
      (watchLoop t (pre.map WatchInput.ev ++
          WatchInput.ev ⟨EventType.Deleted, obj⟩ :: rest)).2 =
        WatchOutcome.errNotFound "") ∧
    (∀ n : String, WatchOutcome.errNotFound n ≠ WatchOutcome.ok ∧
      WatchOutcome.errNotFound n ≠ WatchOutcome.errInternal ∧
      WatchOutcome.errNotFound n ≠ WatchOutcome.pending) := by
  refine ⟨watchLoop_deleted, ?_⟩
  intro n
  refine ⟨?_, ?_, ?_⟩ <;> intro h <;> cases h

theorem deleted_event_notFound_witness :
    (watchLoop 0 ([(⟨EventType.Modified, some ⟨"demo", ⟨[], []⟩⟩⟩ :
        WatchEvent)].map WatchInput.ev ++
        WatchInput.ev ⟨EventType.Deleted, none⟩ :: [])).2 =
      WatchOutcome.errNotFound "" :=
  deleted_event_notFound.1 0 [⟨EventType.Modified, some ⟨"demo", ⟨[], []⟩⟩⟩]
    none [] (by decide)

/-- C8: when the precondition cache read reports that the named test
suite does not exist, waitForTestSuite returns the NotFound error for
that name immediately, with no sink calls and without processing any
watch input, for every timeout and every input trace. -/
theorem precondition_notFound_shortcircuit :
    ∀ (name : String) (t : Nat) (inputs : List WatchInput),
      waitForTestSuite name (Except.ok false) t inputs =
        ([], WatchOutcome.errNotFound name) := by
  intros
  simp [waitForTestSuite]

/-- C9: with a zero timeout neither watcher ever takes its timeout
branch: waitForInstaller never returns the deadline error and
waitForTestSuite never returns the deadline-exceeded outcome, for every
oracle trace. -/
theorem zero_timeout_never_deadline :
    (∀ (initial : Except String String) (ticks : List LoopTick),
      (waitForInstaller 0 initial ticks).2.2 ≠ PollResult.timeoutErr) ∧
    (∀ (name : String) (sg : Except String Bool) (inputs : List WatchInput),
      (waitForTestSuite name sg 0 inputs).2 ≠ WatchOutcome.deadlineExceeded) := by
  constructor
  · intro initial ticks
    cases initial with
    | error e => simp [waitForInstaller]
    | ok s =>
      by_cases hs : s = "Installed"
      · simp [waitForInstaller, hs]
      · have h := pollLoop_zero_no_timeout ⟨"", false⟩ ticks
        rcases hp : pollLoop 0 ⟨"", false⟩ ticks with ⟨evs, n, r⟩
        rw [hp] at h
        simp only at h
        simp [waitForInstaller, hs, hp]
        exact h
  · intro name sg inputs
    cases sg with
    | error e => simp [waitForTestSuite]
    | ok found =>
      cases found
      · simp [waitForTestSuite]
      · simpa [waitForTestSuite] using watchLoop_zero_no_deadline inputs
